import Mathlib

/-!
A shallow embedding of the reverse-geocoding core of geocode-glib
(geocode-glib/geocode-reverse.c): the attribute renaming table, the JSON
response normalizer (resolve_json / add_nominatim_attributes), the query
builder (get_resolve_query_for_params) and the synchronous and asynchronous
resolution coordinators (geocode_reverse_resolve, geocode_reverse_resolve_async
with its callbacks on_cache_data_loaded / on_query_data_loaded).

GHashTable with string keys and values is modelled extensionally as a partial
map String to Option String: g_hash_table_insert replaces the value of an
existing key, g_hash_table_lookup is application.  JSON nodes are modelled by
an inductive JsonValue; json_reader_get_string_value returns none on a
non-string node (the reader error it sets is cleared by the matching
json_reader_end_member in the source loop).  The JSON text parser
(json_parser_load_from_data), the cache primitives
(_geocode_glib_cache_load / _geocode_glib_cache_save /
_geocode_glib_cache_path_for_query, which live in geocode-glib.c, outside the
provided sources) and the HTTP transport (libsoup) are external collaborators:
they enter the model as explicit parameters, with the cache lookup modelled
from the spec (any failure, including a missing cache path, is a miss).
-/

/-- GHashTable with string keys and values, modelled extensionally. -/
def GStrMap : Type := String → Option String

/-- A freshly created, empty hash table. -/
def ght_empty : GStrMap := fun _ => none

/-- g_hash_table_insert: replaces the value of an existing key. -/
def ght_insert (ht : GStrMap) (k v : String) : GStrMap :=
  fun c => if c = k then some v else ht c

/-- JSON nodes as seen through JsonReader. -/
inductive JsonValue where
  | vnull
  | vbool (b : Bool)
  | vnum (n : Int)
  | vstr (s : String)
  | varr (elems : List JsonValue)
  | vobj (members : List (String × JsonValue))

/-- json_reader_get_string_value: the string of a string node, none otherwise
(the reader error set on a non-string node is cleared by end_member). -/
def json_get_string_value : JsonValue → Option String
  | JsonValue.vstr s => some s
  | _ => none

/-- json_reader_list_members: member list of the current object node, in
insertion order. -/
def json_list_members : JsonValue → List (String × JsonValue)
  | JsonValue.vobj ms => ms
  | _ => []

/-- json_reader_read_member: succeeds iff the current node is an object with
the named member, yielding that member node. -/
def json_read_member (root : JsonValue) (name : String) : Option JsonValue :=
  match root with
  | JsonValue.vobj ms => List.lookup name ms
  | _ => none

/-- The static attrs_map table of geocode-reverse.c: pairs of nominatim_attr
and xep_attr (none models a NULL xep_attr). -/
def attrs_map : List (String × Option String) :=
  [ ("license", none),
    ("osm_type", none),
    ("osm_id", none),
    ("lat", none),
    ("lon", none),
    ("display_name", some "description"),
    ("house_number", some "building"),
    ("road", some "street"),
    ("suburb", some "area"),
    ("city", some "locality"),
    ("county", none),
    ("state_district", none),
    ("state", some "region"),
    ("postcode", some "postalcode"),
    ("country", some "country"),
    ("country_code", some "countrycode"),
    ("continent", none),
    ("address", none) ]

/-- The scan loop of nominatim_to_xep over a table: on the first matching
nominatim_attr return its xep_attr (which may be NULL, i.e. none); if the
attribute is unknown return NULL. -/
def scan_attrs_table : List (String × Option String) → String → Option String
  | [], _ => none
  | (n, x) :: rest, attr => if attr = n then x else scan_attrs_table rest attr

/-- nominatim_to_xep: table lookup in attrs_map; none both for a table entry
with NULL xep_attr and for an unknown attribute, exactly as the C function
conflates the two by returning NULL. -/
def nominatim_to_xep (attr : String) : Option String :=
  scan_attrs_table attrs_map attr

/-- One iteration of the member loop of add_nominatim_attributes: read the
member value as a string, treat an empty string as NULL, and if a value
remains insert it under the xep name when one exists, else under the original
member name. -/
def add_one (ht : GStrMap) (m : String × JsonValue) : GStrMap :=
  match json_get_string_value m.2 with
  | none => ht
  | some value =>
    if value = "" then ht
    else
      match nominatim_to_xep m.1 with
      | some xep_attr => ght_insert ht xep_attr value
      | none => ght_insert ht m.1 value

/-- add_nominatim_attributes: fold the member loop over
json_reader_list_members of the current object. -/
def add_nominatim_attributes (members : List (String × JsonValue)) (ht : GStrMap) : GStrMap :=
  members.foldl add_one ht

/-- The key and value a member would insert into the hash table, if any:
none when the value is not a string or is the empty string. -/
def inserted_pair (m : String × JsonValue) : Option (String × String) :=
  match json_get_string_value m.2 with
  | none => none
  | some value =>
    if value = "" then none
    else
      match nominatim_to_xep m.1 with
      | some xep_attr => some (xep_attr, value)
      | none => some (m.1, value)

/-- The value of the last member of a list that inserts under a given key,
if any member does: later members take precedence. -/
def lastInsert : List (String × JsonValue) → String → Option String
  | [], _ => none
  | m :: rest, c =>
    match lastInsert rest c with
    | some s => some s
    | none =>
      match inserted_pair m with
      | some kv => if c = kv.1 then some kv.2 else none
      | none => none

/-- The error taxonomy of a resolution attempt: GEOCODE_ERROR_NOT_SUPPORTED
from resolve_json, G_IO_ERROR_FAILED from the transport, and the JSON parser
error passed through by resolve_json. -/
inductive GeocodeError where
  | notSupported (message : String)
  | networkFailure (message : String)
  | parseFailure (message : String)

/-- resolve_json on an already parsed root node: if the top level carries an
error member, fail with GEOCODE_ERROR_NOT_SUPPORTED (message: the string
value of that member, with the empty string treated as absent and a fixed
default otherwise); else normalize the top-level members and then, if an
address member exists, additionally normalize its members into the same
table. -/
def resolve_json (root : JsonValue) : Except GeocodeError GStrMap :=
  match json_read_member root "error" with
  | some v =>
      let msg :=
        match json_get_string_value v with
        | some s => if s = "" then none else some s
        | none => none
      Except.error (GeocodeError.notSupported (msg.getD "Query not supported"))
  | none =>
      let ret := add_nominatim_attributes (json_list_members root) ght_empty
      match json_read_member root "address" with
      | some addr => Except.ok (add_nominatim_attributes (json_list_members addr) ret)
      | none => Except.ok ret

/-- resolve_json on raw bytes: json_parser_load_from_data is an external
collaborator, passed in as the parse argument; its failure becomes the
parse error returned through the GError out-parameter. -/
def resolve_json_str (parse : String → Except String JsonValue) (contents : String) :
    Except GeocodeError GStrMap :=
  match parse contents with
  | Except.error e => Except.error (GeocodeError.parseFailure e)
  | Except.ok root => resolve_json root

/-- _geocode_glib_dup_hash_table: g_hash_table_foreach with copy_item inserts
every binding of the source table into a fresh table; extensionally the same
partial map. -/
def _geocode_glib_dup_hash_table (ht : GStrMap) : GStrMap := fun k => ht k

/-- get_resolve_query_for_params: duplicate the caller parameters, insert the
service defaults format=json, email, addressdetails=1 (g_hash_table_insert
replaces existing values), and insert the locale tag under accept-language
only when that key is not already present.  _geocode_object_get_lang is an
external collaborator modelled as the optional lang argument. -/
def get_resolve_query_for_params (lang : Option String) (orig_ht : GStrMap) : GStrMap :=
  let ht := _geocode_glib_dup_hash_table orig_ht
  let ht := ght_insert ht "format" "json"
  let ht := ght_insert ht "email" "zeeshanak@gnome.org"
  let ht := ght_insert ht "addressdetails" "1"
  match ht "accept-language" with
  | some _ => ht
  | none =>
      match lang with
      | some locale => ght_insert ht "accept-language" locale
      | none => ht

/-- SOUP_STATUS_OK. -/
def SOUP_STATUS_OK : Nat := 200

/-- The transport outcome of queueing or sending the SoupMessage: status code,
optional reason phrase and raw response body bytes. -/
structure SoupMessage where
  status_code : Nat
  reason_phrase : Option String
  response_body : String

/-- The observable outcome of one resolution attempt: the delivered result,
how many network fetches were issued, and the byte strings handed to
_geocode_glib_cache_save, in order. -/
structure ResolveOutcome where
  result : Except GeocodeError GStrMap
  fetchCount : Nat
  cacheWrites : List String

/-- Modelled from the spec: _geocode_glib_cache_path_for_query and
_geocode_glib_cache_load live in geocode-glib.c, outside the provided
sources.  Per the spec, CacheStore lookup reads from the deterministic path
if present and readable, and any failure (including a missing path) is
uniformly a miss; cache_path is the optional derived path and load_contents
the file read. -/
def _geocode_glib_cache_load (cache_path : Option String)
    (load_contents : String → Option String) : Option String :=
  match cache_path with
  | none => none
  | some p => load_contents p

/-- geocode_reverse_resolve, the synchronous coordinator: on a cache hit parse
the cached bytes; on a miss send the message, fail on a non-OK status with
the reason phrase (or a fixed fallback), otherwise parse the body and, when
parsing succeeds (to_cache was set in the miss branch), save the raw body
bytes to the cache. -/
def geocode_reverse_resolve (parse : String → Except String JsonValue)
    (cache_path : Option String) (load_contents : String → Option String)
    (msg : SoupMessage) : ResolveOutcome :=
  match _geocode_glib_cache_load cache_path load_contents with
  | some contents =>
      { result := resolve_json_str parse contents, fetchCount := 0, cacheWrites := [] }
  | none =>
      if msg.status_code ≠ SOUP_STATUS_OK then
        { result := Except.error (GeocodeError.networkFailure
            (msg.reason_phrase.getD "Query failed")),
          fetchCount := 1, cacheWrites := [] }
      else
        let contents := msg.response_body
        let ret := resolve_json_str parse contents
        { result := ret, fetchCount := 1,
          cacheWrites :=
            match ret with
            | Except.ok _ => [contents]
            | Except.error _ => [] }

/-- on_query_data_loaded, the network callback: on a non-OK status complete
with a network error; else parse the body, completing with the parse error on
failure, and on success save the raw bytes to cache and complete with the
table.  Returns the delivered result together with the cache writes. -/
def on_query_data_loaded (parse : String → Except String JsonValue)
    (msg : SoupMessage) : Except GeocodeError GStrMap × List String :=
  if msg.status_code ≠ SOUP_STATUS_OK then
    (Except.error (GeocodeError.networkFailure (msg.reason_phrase.getD "Query failed")), [])
  else
    let contents := msg.response_body
    match resolve_json_str parse contents with
    | Except.error e => (Except.error e, [])
    | Except.ok ret => (Except.ok ret, [contents])

/-- on_cache_data_loaded, the cache-read callback: when g_file_load_contents
failed, queue the query on the soup session (one fetch, handled by
on_query_data_loaded); when it succeeded, parse the cached bytes and complete
with the result, neither fetching nor writing. -/
def on_cache_data_loaded (parse : String → Except String JsonValue)
    (load_result : Option String) (msg : SoupMessage) : ResolveOutcome :=
  match load_result with
  | none =>
      let qr := on_query_data_loaded parse msg
      { result := qr.1, fetchCount := 1, cacheWrites := qr.2 }
  | some contents =>
      { result := resolve_json_str parse contents, fetchCount := 0, cacheWrites := [] }

/-- geocode_reverse_resolve_async: when no cache path can be derived, queue
the query directly; otherwise read the cache file asynchronously and continue
in on_cache_data_loaded.  The outcome records what the completion delivers. -/
def geocode_reverse_resolve_async (parse : String → Except String JsonValue)
    (cache_path : Option String) (load_contents : String → Option String)
    (msg : SoupMessage) : ResolveOutcome :=
  match cache_path with
  | none =>
      let qr := on_query_data_loaded parse msg
      { result := qr.1, fetchCount := 1, cacheWrites := qr.2 }
  | some p => on_cache_data_loaded parse (load_contents p) msg

/-- geocode_reverse_resolve_finish: propagate the stored error or return the
stored result table. -/
def geocode_reverse_resolve_finish (outcome : ResolveOutcome) : Except GeocodeError GStrMap :=
  outcome.result

/-! Helper lemmas about the normalization fold. -/

lemma add_one_eq (ht : GStrMap) (m : String × JsonValue) :
    add_one ht m =
      match inserted_pair m with
      | some kv => ght_insert ht kv.1 kv.2
      | none => ht := by
  obtain ⟨s, jv⟩ := m
  cases jv with
  | vstr v =>
      by_cases hv : v = "" <;>
        cases hx : nominatim_to_xep s <;>
          simp [add_one, inserted_pair, json_get_string_value, hv, hx]
  | vnull => rfl
  | vbool b => rfl
  | vnum n => rfl
  | varr es => rfl
  | vobj ms => rfl

lemma add_lookup (ms : List (String × JsonValue)) (ht : GStrMap) (c : String) :
    add_nominatim_attributes ms ht c =
      match lastInsert ms c with
      | some s => some s
      | none => ht c := by
  induction ms generalizing ht with
  | nil => rfl
  | cons m rest ih =>
      show add_nominatim_attributes rest (add_one ht m) c = _
      rw [ih]
      simp only [lastInsert]
      cases hrest : lastInsert rest c with
      | some s => rfl
      | none =>
          rw [add_one_eq]
          cases hp : inserted_pair m with
          | none => rfl
          | some kv =>
              by_cases hc : c = kv.1
              · simp [ght_insert, hc]
              · simp [ght_insert, hc]

lemma lastInsert_mem (ms : List (String × JsonValue)) (c v : String)
    (h : lastInsert ms c = some v) :
    ∃ m, m ∈ ms ∧ inserted_pair m = some (c, v) := by
  induction ms with
  | nil => simp [lastInsert] at h
  | cons m rest ih =>
      simp only [lastInsert] at h
      cases hrest : lastInsert rest c with
      | some s =>
          rw [hrest] at h
          injection h with h
          obtain ⟨m0, hm0, hp0⟩ := ih (by rw [hrest, h])
          exact ⟨m0, List.mem_cons_of_mem m hm0, hp0⟩
      | none =>
          rw [hrest] at h
          cases hp : inserted_pair m with
          | none => rw [hp] at h; cases h
          | some kv =>
              obtain ⟨k, s⟩ := kv
              rw [hp] at h
              by_cases hc : c = k
              · simp only [hc, if_pos rfl] at h
                injection h with h
                refine ⟨m, List.mem_cons_self m rest, ?_⟩
                rw [hp, hc, h]
              · simp [hc] at h

lemma inserted_pair_inv (s : String) (jv : JsonValue) (c v : String)
    (h : inserted_pair (s, jv) = some (c, v)) :
    jv = JsonValue.vstr v ∧ v ≠ "" ∧ (nominatim_to_xep s).getD s = c := by
  cases jv with
  | vstr w =>
      by_cases hw : w = ""
      · simp [inserted_pair, json_get_string_value, hw] at h
      · cases hx : nominatim_to_xep s with
        | some x =>
            simp only [inserted_pair, json_get_string_value, hx, if_neg hw] at h
            injection h with h
            injection h with h1 h2
            subst h1; subst h2
            exact ⟨rfl, hw, rfl⟩
        | none =>
            simp only [inserted_pair, json_get_string_value, hx, if_neg hw] at h
            injection h with h
            injection h with h1 h2
            subst h1; subst h2
            exact ⟨rfl, hw, rfl⟩
  | vnull => simp [inserted_pair, json_get_string_value] at h
  | vbool b => simp [inserted_pair, json_get_string_value] at h
  | vnum n => simp [inserted_pair, json_get_string_value] at h
  | varr es => simp [inserted_pair, json_get_string_value] at h
  | vobj ms => simp [inserted_pair, json_get_string_value] at h

lemma inserted_pair_vstr (s v : String) (hv : v ≠ "") :
    inserted_pair (s, JsonValue.vstr v) = some ((nominatim_to_xep s).getD s, v) := by
  cases hx : nominatim_to_xep s <;>
    simp [inserted_pair, json_get_string_value, hv, hx]

lemma lastInsert_of_mem_unique (ms : List (String × JsonValue)) (c v : String)
    (m0 : String × JsonValue) (hm0 : m0 ∈ ms) (hp0 : inserted_pair m0 = some (c, v))
    (huniq : ∀ m ∈ ms, ∀ s, inserted_pair m = some (c, s) → s = v) :
    lastInsert ms c = some v := by
  induction ms with
  | nil => cases hm0
  | cons m rest ih =>
      simp only [lastInsert]
      cases hrest : lastInsert rest c with
      | some s =>
          obtain ⟨m1, hm1, hp1⟩ := lastInsert_mem rest c s hrest
          rw [huniq m1 (List.mem_cons_of_mem m hm1) s hp1]
      | none =>
          rcases List.mem_cons.mp hm0 with h0 | h0
          · subst h0
            rw [hp0]
            simp
          · have hsome := ih h0
              (fun m hm s hp => huniq m (List.mem_cons_of_mem _ hm) s hp)
            rw [hsome] at hrest
            cases hrest

lemma lastInsert_ne_empty (ms : List (String × JsonValue)) (c : String) :
    lastInsert ms c ≠ some "" := by
  intro h
  obtain ⟨m, hm, hp⟩ := lastInsert_mem ms c "" h
  obtain ⟨s, jv⟩ := m
  obtain ⟨_, hne, _⟩ := inserted_pair_inv s jv c "" hp
  exact hne rfl

lemma add_no_empty (ms : List (String × JsonValue)) (ht : GStrMap) (c : String)
    (h : ht c ≠ some "") : add_nominatim_attributes ms ht c ≠ some "" := by
  rw [add_lookup]
  cases hl : lastInsert ms c with
  | none => exact h
  | some s =>
      intro hc
      injection hc with hc
      exact lastInsert_ne_empty ms c (by rw [hl, hc])

lemma add_from_empty_mem (ms : List (String × JsonValue)) (c v : String)
    (h : add_nominatim_attributes ms ght_empty c = some v) :
    v ≠ "" ∧ ∃ s, (nominatim_to_xep s).getD s = c ∧ (s, JsonValue.vstr v) ∈ ms := by
  rw [add_lookup] at h
  cases hl : lastInsert ms c with
  | none => rw [hl] at h; exact absurd h (by simp [ght_empty])
  | some s0 =>
      rw [hl] at h
      injection h with h
      subst h
      obtain ⟨mm, hmm, hpp⟩ := lastInsert_mem ms c s0 hl
      obtain ⟨sname, jv⟩ := mm
      obtain ⟨hjv, hvne, hcanon⟩ := inserted_pair_inv sname jv c s0 hpp
      subst hjv
      exact ⟨hvne, sname, hcanon, hmm⟩

lemma add_two_pass_mem (ms2 ms1 : List (String × JsonValue)) (c v : String)
    (h : add_nominatim_attributes ms2 (add_nominatim_attributes ms1 ght_empty) c = some v) :
    v ≠ "" ∧ ∃ s, (nominatim_to_xep s).getD s = c ∧
      ((s, JsonValue.vstr v) ∈ ms2 ∨ (s, JsonValue.vstr v) ∈ ms1) := by
  rw [add_lookup] at h
  cases hl : lastInsert ms2 c with
  | some s0 =>
      rw [hl] at h
      injection h with h
      subst h
      obtain ⟨mm, hmm, hpp⟩ := lastInsert_mem ms2 c s0 hl
      obtain ⟨sname, jv⟩ := mm
      obtain ⟨hjv, hvne, hcanon⟩ := inserted_pair_inv sname jv c s0 hpp
      subst hjv
      exact ⟨hvne, sname, hcanon, Or.inl hmm⟩
  | none =>
      rw [hl] at h
      obtain ⟨hvne, sname, hcanon, hmem⟩ := add_from_empty_mem ms1 c v h
      exact ⟨hvne, sname, hcanon, Or.inr hmem⟩

lemma resolve_sync_eq_async (parse : String → Except String JsonValue)
    (cache_path : Option String) (load_contents : String → Option String)
    (msg : SoupMessage) :
    geocode_reverse_resolve parse cache_path load_contents msg =
      geocode_reverse_resolve_async parse cache_path load_contents msg := by
  cases cache_path with
  | none =>
      simp only [geocode_reverse_resolve, geocode_reverse_resolve_async,
        _geocode_glib_cache_load, on_query_data_loaded]
      by_cases hst : msg.status_code ≠ SOUP_STATUS_OK
      · simp [hst]
      · simp only [if_neg hst]
        cases hr : resolve_json_str parse msg.response_body <;> simp [hr]
  | some p =>
      simp only [geocode_reverse_resolve, geocode_reverse_resolve_async,
        _geocode_glib_cache_load, on_cache_data_loaded, on_query_data_loaded]
      cases load_contents p with
      | some contents => rfl
      | none =>
          by_cases hst : msg.status_code ≠ SOUP_STATUS_OK
          · simp [hst]
          · simp only [if_neg hst]
            cases hr : resolve_json_str parse msg.response_body <;> simp [hr]

/-! The claim theorems. -/

/-- Claim C1: for every resolution attempt whose cache lookup yields a
present, readable entry, both the synchronous coordinator and the
asynchronous one parse exactly the cached bytes and deliver the parsing
verdict (on a JSON syntax failure, the parse failure), issuing no network
fetch and writing nothing to the cache. -/
theorem cache_hit_no_fetch (parse : String → Except String JsonValue)
    (cache_path : Option String) (load_contents : String → Option String)
    (msg : SoupMessage) (contents : String)
    (h : _geocode_glib_cache_load cache_path load_contents = some contents) :
    geocode_reverse_resolve parse cache_path load_contents msg =
      { result := resolve_json_str parse contents, fetchCount := 0, cacheWrites := [] } ∧
    geocode_reverse_resolve_async parse cache_path load_contents msg =
      { result := resolve_json_str parse contents, fetchCount := 0, cacheWrites := [] } ∧
    (∀ e, parse contents = Except.error e →
      (geocode_reverse_resolve parse cache_path load_contents msg).result =
        Except.error (GeocodeError.parseFailure e)) := by
  cases cache_path with
  | none => simp [_geocode_glib_cache_load] at h
  | some p =>
      simp only [_geocode_glib_cache_load] at h
      refine ⟨?_, ?_, ?_⟩
      · simp [geocode_reverse_resolve, _geocode_glib_cache_load, h]
      · simp [geocode_reverse_resolve_async, on_cache_data_loaded, h]
      · intro e he
        simp [geocode_reverse_resolve, _geocode_glib_cache_load, h,
          resolve_json_str, he]

/-- Witness for C1 at a concrete cache hit whose bytes fail to parse. -/
theorem cache_hit_no_fetch_witness :
    geocode_reverse_resolve (fun _ => Except.error "bad json") (some "key")
        (fun _ => some "cached") ⟨200, none, "body"⟩ =
      { result := Except.error (GeocodeError.parseFailure "bad json"),
        fetchCount := 0, cacheWrites := [] } ∧
    geocode_reverse_resolve_async (fun _ => Except.error "bad json") (some "key")
        (fun _ => some "cached") ⟨200, none, "body"⟩ =
      { result := Except.error (GeocodeError.parseFailure "bad json"),
        fetchCount := 0, cacheWrites := [] } :=
  ⟨(cache_hit_no_fetch (fun _ => Except.error "bad json") (some "key")
      (fun _ => some "cached") ⟨200, none, "body"⟩ "cached" rfl).1,
   (cache_hit_no_fetch (fun _ => Except.error "bad json") (some "key")
      (fun _ => some "cached") ⟨200, none, "body"⟩ "cached" rfl).2.1⟩

/-- Claim C2: on a cache miss, a cache write occurs iff the fetch status is
OK and the fetched bytes parse successfully, and the bytes written are
exactly the raw response body; on a parse failure of fetched bytes the parse
error is delivered and nothing is cached.  The asynchronous path behaves
identically. -/
theorem cache_miss_write_iff (parse : String → Except String JsonValue)
    (cache_path : Option String) (load_contents : String → Option String)
    (msg : SoupMessage)
    (h : _geocode_glib_cache_load cache_path load_contents = none) :
    ((geocode_reverse_resolve parse cache_path load_contents msg).cacheWrites =
        [msg.response_body] ↔
      (msg.status_code = SOUP_STATUS_OK ∧
        ∃ m, resolve_json_str parse msg.response_body = Except.ok m)) ∧
    ((geocode_reverse_resolve parse cache_path load_contents msg).cacheWrites =
        [msg.response_body] ∨
      (geocode_reverse_resolve parse cache_path load_contents msg).cacheWrites = []) ∧
    (∀ e, msg.status_code = SOUP_STATUS_OK →
      resolve_json_str parse msg.response_body = Except.error e →
      (geocode_reverse_resolve parse cache_path load_contents msg).result =
          Except.error e ∧
        (geocode_reverse_resolve parse cache_path load_contents msg).cacheWrites = []) ∧
    geocode_reverse_resolve_async parse cache_path load_contents msg =
      geocode_reverse_resolve parse cache_path load_contents msg := by
  refine ⟨?_, ?_, ?_, (resolve_sync_eq_async parse cache_path load_contents msg).symm⟩
  · by_cases hst : msg.status_code = SOUP_STATUS_OK
    · cases hr : resolve_json_str parse msg.response_body with
      | ok m =>
          simp [geocode_reverse_resolve, h, hst, hr]
      | error e =>
          simp [geocode_reverse_resolve, h, hst, hr]
    · simp [geocode_reverse_resolve, h, hst]
  · by_cases hst : msg.status_code = SOUP_STATUS_OK
    · cases hr : resolve_json_str parse msg.response_body with
      | ok m => simp [geocode_reverse_resolve, h, hst, hr]
      | error e => simp [geocode_reverse_resolve, h, hst, hr]
    · simp [geocode_reverse_resolve, h, hst]
  · intro e hst hr
    simp [geocode_reverse_resolve, h, hst, hr]

/-- Witness for C2: a miss with a parse failure delivers the parse error and
writes nothing; a miss with a successful parse writes exactly the body. -/
theorem cache_miss_write_iff_witness :
    (geocode_reverse_resolve (fun _ => Except.error "bad json") none
        (fun _ => none) ⟨200, none, "RAWBODY"⟩).result =
      Except.error (GeocodeError.parseFailure "bad json") ∧
    (geocode_reverse_resolve (fun _ => Except.error "bad json") none
        (fun _ => none) ⟨200, none, "RAWBODY"⟩).cacheWrites = [] ∧
    (geocode_reverse_resolve (fun _ => Except.ok (JsonValue.vobj [])) none
        (fun _ => none) ⟨200, none, "RAWBODY"⟩).cacheWrites = ["RAWBODY"] :=
  ⟨((cache_miss_write_iff (fun _ => Except.error "bad json") none (fun _ => none)
      ⟨200, none, "RAWBODY"⟩ rfl).2.2.1
      (GeocodeError.parseFailure "bad json") rfl rfl).1,
   ((cache_miss_write_iff (fun _ => Except.error "bad json") none (fun _ => none)
      ⟨200, none, "RAWBODY"⟩ rfl).2.2.1
      (GeocodeError.parseFailure "bad json") rfl rfl).2,
   ((cache_miss_write_iff (fun _ => Except.ok (JsonValue.vobj [])) none (fun _ => none)
      ⟨200, none, "RAWBODY"⟩ rfl).1).mpr ⟨rfl, ght_empty, rfl⟩⟩

/-- Claim C8: on a cache miss with a non-success transport status, both
coordinators terminate with a NetworkFailure carrying the reason phrase when
present and the fixed message otherwise, having issued exactly one fetch;
and no resolution attempt ever issues more than one fetch. -/
theorem network_failure_mapped (parse : String → Except String JsonValue)
    (cache_path : Option String) (load_contents : String → Option String)
    (msg : SoupMessage)
    (h : _geocode_glib_cache_load cache_path load_contents = none)
    (hst : msg.status_code ≠ SOUP_STATUS_OK) :
    geocode_reverse_resolve parse cache_path load_contents msg =
      { result := Except.error (GeocodeError.networkFailure
          (msg.reason_phrase.getD "Query failed")),
        fetchCount := 1, cacheWrites := [] } ∧
    geocode_reverse_resolve_async parse cache_path load_contents msg =
      { result := Except.error (GeocodeError.networkFailure
          (msg.reason_phrase.getD "Query failed")),
        fetchCount := 1, cacheWrites := [] } ∧
    (∀ r, msg.reason_phrase = some r →
      msg.reason_phrase.getD "Query failed" = r) ∧
    (msg.reason_phrase = none →
      msg.reason_phrase.getD "Query failed" = "Query failed") ∧
    (∀ cp, (geocode_reverse_resolve parse cp load_contents msg).fetchCount ≤ 1) ∧
    (∀ cp, (geocode_reverse_resolve_async parse cp load_contents msg).fetchCount ≤ 1) := by
  refine ⟨?_, ?_, ?_, ?_, ?_, ?_⟩
  · simp [geocode_reverse_resolve, h, hst]
  · rw [← resolve_sync_eq_async]
    simp [geocode_reverse_resolve, h, hst]
  · intro r hr; rw [hr]; rfl
  · intro hr; rw [hr]; rfl
  · intro cp
    rw [resolve_sync_eq_async]
    cases cp with
    | none => exact Nat.le_refl 1
    | some p =>
        simp only [geocode_reverse_resolve_async, on_cache_data_loaded]
        cases load_contents p <;> simp
  · intro cp
    cases cp with
    | none => exact Nat.le_refl 1
    | some p =>
        simp only [geocode_reverse_resolve_async, on_cache_data_loaded]
        cases load_contents p <;> simp

/-- Witness for C8 at a 404 with a reason phrase and a 500 without one. -/
theorem network_failure_mapped_witness :
    geocode_reverse_resolve (fun _ => Except.error "x") none (fun _ => none)
        ⟨404, some "Not Found", ""⟩ =
      { result := Except.error (GeocodeError.networkFailure "Not Found"),
        fetchCount := 1, cacheWrites := [] } ∧
    geocode_reverse_resolve (fun _ => Except.error "x") none (fun _ => none)
        ⟨500, none, ""⟩ =
      { result := Except.error (GeocodeError.networkFailure "Query failed"),
        fetchCount := 1, cacheWrites := [] } :=
  ⟨(network_failure_mapped _ none _ _ rfl (by decide)).1,
   (network_failure_mapped _ none _ _ rfl (by decide)).1⟩

/-- Claim C9: for every parameter set and every cache and network outcome the
synchronous entry point and the asynchronous entry point followed by finish
produce the same terminal outcome (same table or same error, and even the
same fetch and cache-write effects), differing only in delivery. -/
theorem resolve_sync_async_equiv (parse : String → Except String JsonValue)
    (cache_path : Option String) (load_contents : String → Option String)
    (msg : SoupMessage) :
    geocode_reverse_resolve parse cache_path load_contents msg =
      geocode_reverse_resolve_async parse cache_path load_contents msg ∧
    geocode_reverse_resolve_finish
        (geocode_reverse_resolve_async parse cache_path load_contents msg) =
      (geocode_reverse_resolve parse cache_path load_contents msg).result :=
  ⟨resolve_sync_eq_async parse cache_path load_contents msg,
   by rw [resolve_sync_eq_async parse cache_path load_contents msg]; rfl⟩

/-- Counterexample for claim C3: a caller who supplied format=xml does not
see their value in the built Query; g_hash_table_insert replaced it with the
default json, so caller-supplied values do not take precedence for the three
fixed default keys. -/
theorem query_defaults_overwrite_caller :
    get_resolve_query_for_params none (ght_insert ght_empty "format" "xml") "format"
      = some "json" ∧
    ght_insert ght_empty "format" "xml" "format" = some "xml" ∧
    (some "json" : Option String) ≠ some "xml" := by
  refine ⟨rfl, rfl, ?_⟩
  intro h
  injection h with h
  exact absurd h (by decide)

/-- Claim C3 as amended: building the Query sets format=json, the contact
email and addressdetails=1, overwriting any caller-supplied value for those
three keys; accept-language is taken from the caller when supplied and only
otherwise from the locale tag; every other caller parameter passes through
unchanged (so no key is ever duplicated). -/
theorem query_builder_characterization (lang : Option String) (orig_ht : GStrMap)
    (k : String) :
    get_resolve_query_for_params lang orig_ht k =
      if k = "addressdetails" then some "1"
      else if k = "email" then some "zeeshanak@gnome.org"
      else if k = "format" then some "json"
      else if k = "accept-language" then
        (match orig_ht "accept-language" with
         | some v => some v
         | none => lang)
      else orig_ht k := by
  unfold get_resolve_query_for_params _geocode_glib_dup_hash_table
  have hacc : ght_insert (ght_insert (ght_insert (fun j => orig_ht j)
      "format" "json") "email" "zeeshanak@gnome.org") "addressdetails" "1"
      "accept-language" = orig_ht "accept-language" := by
    simp [ght_insert]
  rw [hacc]
  cases horig : orig_ht "accept-language" with
  | some v =>
      by_cases h1 : k = "addressdetails"
      · subst h1; rfl
      by_cases h2 : k = "email"
      · subst h2; rfl
      by_cases h3 : k = "format"
      · subst h3; rfl
      by_cases h4 : k = "accept-language"
      · subst h4
        rw [if_neg h1, if_neg h2, if_neg h3, if_pos rfl]
        exact horig
      · simp [ght_insert, h1, h2, h3, h4]
  | none =>
      cases lang with
      | some l =>
          by_cases h1 : k = "addressdetails"
          · subst h1; rfl
          by_cases h2 : k = "email"
          · subst h2; rfl
          by_cases h3 : k = "format"
          · subst h3; rfl
          by_cases h4 : k = "accept-language"
          · subst h4; rfl
          · simp [ght_insert, h1, h2, h3, h4]
      | none =>
          by_cases h1 : k = "addressdetails"
          · subst h1; rfl
          by_cases h2 : k = "email"
          · subst h2; rfl
          by_cases h3 : k = "format"
          · subst h3; rfl
          by_cases h4 : k = "accept-language"
          · subst h4
            rw [if_neg h1, if_neg h2, if_neg h3, if_pos rfl]
            exact horig
          · simp [ght_insert, h1, h2, h3, h4]

/-- Claim C4: when the top-level object and the nested address object both
carry a field resolving to the same canonical attribute name with non-empty
string values, the parser returns a table whose entry for that name is the
value coming from the address sub-object, because the address pass runs
second and g_hash_table_insert overwrites. -/
theorem resolve_address_overrides
    (tms ams : List (String × JsonValue)) (s1 s2 c v1 v2 : String)
    (herr : List.lookup "error" tms = none)
    (haddr : List.lookup "address" tms = some (JsonValue.vobj ams))
    (h1 : (s1, JsonValue.vstr v1) ∈ tms) (hv1 : v1 ≠ "")
    (hc1 : (nominatim_to_xep s1).getD s1 = c)
    (h2 : (s2, JsonValue.vstr v2) ∈ ams) (hv2 : v2 ≠ "")
    (hc2 : (nominatim_to_xep s2).getD s2 = c)
    (huniq : ∀ m ∈ ams, ∀ s, inserted_pair m = some (c, s) → s = v2) :
    ∃ m, resolve_json (JsonValue.vobj tms) = Except.ok m ∧ m c = some v2 := by
  have hlast : lastInsert ams c = some v2 :=
    lastInsert_of_mem_unique ams c v2 (s2, JsonValue.vstr v2) h2
      (by rw [inserted_pair_vstr s2 v2 hv2, hc2]) huniq
  refine ⟨add_nominatim_attributes ams (add_nominatim_attributes tms ght_empty), ?_, ?_⟩
  · simp [resolve_json, json_read_member, json_list_members, herr, haddr]
  · rw [add_lookup, hlast]

/-- Witness for C4: city appears at the top level and inside address; the
canonical locality entry holds the address value. -/
theorem resolve_address_overrides_witness :
    ∃ m, resolve_json (JsonValue.vobj
        [("city", JsonValue.vstr "TopTown"),
         ("address", JsonValue.vobj [("city", JsonValue.vstr "AddrTown")])]) =
      Except.ok m ∧ m "locality" = some "AddrTown" := by
  refine resolve_address_overrides
    [("city", JsonValue.vstr "TopTown"),
     ("address", JsonValue.vobj [("city", JsonValue.vstr "AddrTown")])]
    [("city", JsonValue.vstr "AddrTown")]
    "city" "city" "locality" "TopTown" "AddrTown"
    rfl rfl (List.mem_cons_self _ _) (by decide) rfl
    (List.mem_cons_self _ _) (by decide) rfl ?_
  intro m hm s hp
  have hm2 : m = ("city", JsonValue.vstr "AddrTown") := by simpa using hm
  subst hm2
  rw [show inserted_pair ("city", JsonValue.vstr "AddrTown") =
      some ("locality", "AddrTown") from rfl] at hp
  injection hp with hp
  injection hp with hp1 hp2
  exact hp2.symm

/-- Claim C5: a response object carrying a top-level error member makes the
parser fail with NotSupported and never yields a table; the message is the
string value of the member when it is a non-empty string, and the fixed
default otherwise. -/
theorem resolve_json_error_field (tms : List (String × JsonValue)) (ev : JsonValue)
    (h : List.lookup "error" tms = some ev) :
    resolve_json (JsonValue.vobj tms) =
      Except.error (GeocodeError.notSupported
        (match json_get_string_value ev with
         | some s => if s = "" then "Query not supported" else s
         | none => "Query not supported")) := by
  simp only [resolve_json, json_read_member, h]
  cases hs : json_get_string_value ev with
  | none => simp
  | some s =>
      by_cases hempty : s = "" <;> simp [hempty]

/-- Witness for C5 at an error with a non-empty string, with the empty
string and with a non-string value. -/
theorem resolve_json_error_field_witness :
    resolve_json (JsonValue.vobj [("error", JsonValue.vstr "You gotz done!")]) =
      Except.error (GeocodeError.notSupported "You gotz done!") ∧
    resolve_json (JsonValue.vobj [("error", JsonValue.vstr "")]) =
      Except.error (GeocodeError.notSupported "Query not supported") ∧
    resolve_json (JsonValue.vobj [("error", JsonValue.vnum 3)]) =
      Except.error (GeocodeError.notSupported "Query not supported") :=
  ⟨resolve_json_error_field [("error", JsonValue.vstr "You gotz done!")]
      (JsonValue.vstr "You gotz done!") rfl,
   resolve_json_error_field [("error", JsonValue.vstr "")]
      (JsonValue.vstr "") rfl,
   resolve_json_error_field [("error", JsonValue.vnum 3)]
      (JsonValue.vnum 3) rfl⟩

/-- Counterexample for claim C6: at the identity table entry from country to
country, normalizing an object containing the field country leaves the key
country present in the map (holding the value), so the source name is not
absent as the claim demands for every table entry with a non-null canonical
name. -/
theorem country_identity_counterexample :
    add_nominatim_attributes [("country", JsonValue.vstr "United Kingdom")]
        ght_empty "country" = some "United Kingdom" ∧
    nominatim_to_xep "country" = some "country" ∧
    (some "United Kingdom" : Option String) ≠ none := by
  refine ⟨rfl, rfl, ?_⟩
  intro h
  cases h

/-- Claim C6 as amended: for a table entry mapping src to a non-null dst,
normalizing an object containing src with a non-empty string value (and no
other member writing the same keys) puts dst in the map with that value, and
leaves src absent whenever dst differs from src (for the identity entry
country to country the single key is of course present); a field name the
table does not rename is preserved under its original name. -/
theorem attrs_renaming_amended :
    (∀ (ms : List (String × JsonValue)) (src v dst : String),
      (src, JsonValue.vstr v) ∈ ms → v ≠ "" → nominatim_to_xep src = some dst →
      (∀ m ∈ ms, ∀ s, inserted_pair m = some (dst, s) → s = v) →
      add_nominatim_attributes ms ght_empty dst = some v ∧
      (dst ≠ src → (∀ m ∈ ms, ∀ s, inserted_pair m ≠ some (src, s)) →
        add_nominatim_attributes ms ght_empty src = none)) ∧
    (∀ (ms : List (String × JsonValue)) (s v : String),
      (s, JsonValue.vstr v) ∈ ms → v ≠ "" → nominatim_to_xep s = none →
      (∀ m ∈ ms, ∀ w, inserted_pair m = some (s, w) → w = v) →
      add_nominatim_attributes ms ght_empty s = some v) := by
  constructor
  · intro ms src v dst hmem hv hdst huniq
    constructor
    · have hlast : lastInsert ms dst = some v :=
        lastInsert_of_mem_unique ms dst v (src, JsonValue.vstr v) hmem
          (by rw [inserted_pair_vstr src v hv, hdst]; rfl) huniq
      rw [add_lookup, hlast]
    · intro _ hnone
      rw [add_lookup]
      cases hl : lastInsert ms src with
      | none => rfl
      | some s0 =>
          obtain ⟨m0, hm0, hp0⟩ := lastInsert_mem ms src s0 hl
          exact absurd hp0 (hnone m0 hm0 s0)
  · intro ms s v hmem hv hxep huniq
    have hlast : lastInsert ms s = some v :=
      lastInsert_of_mem_unique ms s v (s, JsonValue.vstr v) hmem
        (by rw [inserted_pair_vstr s v hv, hxep]; rfl) huniq
    rw [add_lookup, hlast]

/-- Witness for the amended C6: city renames to locality with city absent,
and the unknown field pub passes through unchanged. -/
theorem attrs_renaming_amended_witness :
    add_nominatim_attributes [("city", JsonValue.vstr "Guildford")] ght_empty
        "locality" = some "Guildford" ∧
    add_nominatim_attributes [("city", JsonValue.vstr "Guildford")] ght_empty
        "city" = none ∧
    add_nominatim_attributes [("pub", JsonValue.vstr "The Astolat")] ght_empty
        "pub" = some "The Astolat" := by
  have huniq1 : ∀ m ∈ [("city", JsonValue.vstr "Guildford")], ∀ s,
      inserted_pair m = some ("locality", s) → s = "Guildford" := by
    intro m hm s hp
    have hm2 : m = ("city", JsonValue.vstr "Guildford") := by simpa using hm
    subst hm2
    rw [show inserted_pair ("city", JsonValue.vstr "Guildford") =
        some ("locality", "Guildford") from rfl] at hp
    injection hp with hp
    injection hp with hp1 hp2
    exact hp2.symm
  have h1 := attrs_renaming_amended.1 [("city", JsonValue.vstr "Guildford")]
    "city" "Guildford" "locality" (List.mem_cons_self _ _) (by decide) rfl huniq1
  have hnone : ∀ m ∈ [("city", JsonValue.vstr "Guildford")], ∀ s,
      inserted_pair m ≠ some ("city", s) := by
    intro m hm s hp
    have hm2 : m = ("city", JsonValue.vstr "Guildford") := by simpa using hm
    subst hm2
    rw [show inserted_pair ("city", JsonValue.vstr "Guildford") =
        some ("locality", "Guildford") from rfl] at hp
    injection hp with hp
    injection hp with hp1 hp2
    exact absurd hp1 (by decide)
  have huniq2 : ∀ m ∈ [("pub", JsonValue.vstr "The Astolat")], ∀ w,
      inserted_pair m = some ("pub", w) → w = "The Astolat" := by
    intro m hm w hp
    have hm2 : m = ("pub", JsonValue.vstr "The Astolat") := by simpa using hm
    subst hm2
    rw [show inserted_pair ("pub", JsonValue.vstr "The Astolat") =
        some ("pub", "The Astolat") from rfl] at hp
    injection hp with hp
    injection hp with hp1 hp2
    exact hp2.symm
  refine ⟨h1.1, h1.2 (by decide) hnone, ?_⟩
  exact attrs_renaming_amended.2 [("pub", JsonValue.vstr "The Astolat")]
    "pub" "The Astolat" (List.mem_cons_self _ _) (by decide) rfl huniq2

/-- Claim C7: an empty-string field contributes nothing to the table (the
loop body is the identity on it), and consequently no table the parser
returns ever maps any attribute to the empty string. -/
theorem no_empty_values :
    (∀ (root : JsonValue) (m : GStrMap) (c : String),
      resolve_json root = Except.ok m → m c ≠ some "") ∧
    (∀ (ht : GStrMap) (s : String), add_one ht (s, JsonValue.vstr "") = ht) := by
  constructor
  · intro root m c hok
    simp only [resolve_json] at hok
    cases he : json_read_member root "error" with
    | some v => rw [he] at hok; cases hok
    | none =>
        rw [he] at hok
        cases ha : json_read_member root "address" with
        | some addr =>
            rw [ha] at hok
            injection hok with hok
            subst hok
            exact add_no_empty _ _ c (add_no_empty _ _ c (by simp [ght_empty]))
        | none =>
            rw [ha] at hok
            injection hok with hok
            subst hok
            exact add_no_empty _ _ c (by simp [ght_empty])
  · intro ht s
    rfl

/-- Witness for C7 at a concrete empty-valued field. -/
theorem no_empty_values_witness :
    add_nominatim_attributes [("city", JsonValue.vstr "")] ght_empty "locality"
      ≠ some "" ∧
    add_one ght_empty ("city", JsonValue.vstr "") = ght_empty :=
  ⟨no_empty_values.1 (JsonValue.vobj [("city", JsonValue.vstr "")])
      (add_nominatim_attributes [("city", JsonValue.vstr "")] ght_empty)
      "locality" rfl,
   no_empty_values.2 ght_empty "city"⟩

/-- Claim C10: a member whose value is not a string contributes nothing to
the table (the loop body is the identity on it), and every entry of a table
the parser returns comes from a string-typed member of the top-level object
or of the nested address object; in particular the address object itself
never becomes a key. -/
theorem string_values_only :
    (∀ (ht : GStrMap) (s : String) (v : JsonValue),
      json_get_string_value v = none → add_one ht (s, v) = ht) ∧
    (∀ (tms : List (String × JsonValue)) (m : GStrMap) (c v : String),
      resolve_json (JsonValue.vobj tms) = Except.ok m → m c = some v →
      v ≠ "" ∧ ∃ s, (nominatim_to_xep s).getD s = c ∧
        ((s, JsonValue.vstr v) ∈ tms ∨
         ∃ ams, List.lookup "address" tms = some (JsonValue.vobj ams) ∧
           (s, JsonValue.vstr v) ∈ ams)) := by
  constructor
  · intro ht s v hv
    rw [add_one_eq]
    have hp : inserted_pair (s, v) = none := by
      simp [inserted_pair, hv]
    rw [hp]
  · intro tms m c v hok hc
    simp only [resolve_json, json_read_member, json_list_members] at hok
    cases he : List.lookup "error" tms with
    | some _ => rw [he] at hok; cases hok
    | none =>
        rw [he] at hok
        cases ha : List.lookup "address" tms with
        | some addr =>
            rw [ha] at hok
            injection hok with hok
            subst hok
            obtain ⟨hvne, s, hcanon, hmem⟩ := add_two_pass_mem _ _ c v hc
            cases hmem with
            | inr hin => exact ⟨hvne, s, hcanon, Or.inl hin⟩
            | inl hin =>
                cases addr with
                | vobj ams => exact ⟨hvne, s, hcanon, Or.inr ⟨ams, rfl, hin⟩⟩
                | vnull => cases hin
                | vbool b => cases hin
                | vnum n => cases hin
                | vstr w => cases hin
                | varr es => cases hin
        | none =>
            rw [ha] at hok
            injection hok with hok
            subst hok
            obtain ⟨hvne, s, hcanon, hmem⟩ := add_from_empty_mem _ c v hc
            exact ⟨hvne, s, hcanon, Or.inl hmem⟩

/-- Witness for C10: a non-string member is skipped, and a concrete entry is
traced back to its string-typed member. -/
theorem string_values_only_witness :
    add_one ght_empty ("lat", JsonValue.vnum 51) = ght_empty ∧
    ("The Astolat" : String) ≠ "" ∧
    (∃ s, (nominatim_to_xep s).getD s = "pub" ∧
      ((s, JsonValue.vstr "The Astolat") ∈
          [("pub", JsonValue.vstr "The Astolat")] ∨
       ∃ ams, List.lookup "address" [("pub", JsonValue.vstr "The Astolat")] =
          some (JsonValue.vobj ams) ∧ (s, JsonValue.vstr "The Astolat") ∈ ams)) :=
  ⟨string_values_only.1 ght_empty "lat" (JsonValue.vnum 51) rfl,
   (string_values_only.2 [("pub", JsonValue.vstr "The Astolat")]
      (add_nominatim_attributes [("pub", JsonValue.vstr "The Astolat")] ght_empty)
      "pub" "The Astolat" rfl rfl).1,
   (string_values_only.2 [("pub", JsonValue.vstr "The Astolat")]
      (add_nominatim_attributes [("pub", JsonValue.vstr "The Astolat")] ght_empty)
      "pub" "The Astolat" rfl rfl).2⟩
